import Mathlib

/-!
Shallow embedding of the `investigate` project scaffolder (src/main.rs).

The program is a single linear pipeline: resolve the project name from the
command line, create a root directory plus seven fixed subdirectories,
initialize a git repository, look up the author from the global git config
(best effort), write `.gitignore` and `README.md` from embedded templates,
and optionally write language-specific files (Julia or Python), shelling
out to conda on the Python path.

Side effects are modelled as an explicit trace of effects produced by a
pure function `runMain` over an environment that captures the
command-line arguments, the pre-existing filesystem paths, the git
configuration data, and the conda-related environment.  Embedded template
files (`templates/*`, `README.md`) are not part of the Rust source tree
given here, so their contents are abstract parameters (`Templates`),
modelled from the spec where their shape matters.
-/

/-- The two supported language tags (source: `enum Lang`). -/
inductive Lang
  | python
  | julia
deriving DecidableEq

/-- Model of an `OsString` argument: the textual content together with a
flag saying whether the raw bytes form valid UTF-8 (`to_str` succeeds). -/
structure OsStr where
  raw : String
  isUtf8 : Bool
deriving DecidableEq

/-- Filesystem paths, modelled as their list of components
(`Path::join` pushes one component). -/
abbrev FPath := List String

/-- Rendering of a component path as a string, as `Path::to_str` shows it
on Unix (components joined by `/`). -/
def pathToString : FPath → String
  | [] => ""
  | [c] => c
  | c :: rest => c ++ "/" ++ pathToString rest

/-- Observable side effects of one run of the program. -/
inductive Effect
  | mkdir (p : FPath)
  | gitInit (p : FPath)
  | fileWrite (p : FPath) (content : String)
  | outLine (s : String)
  | errLine (s : String)
  | condaRun (envName : String)
deriving DecidableEq

/-- Result of a run: the effect trace in order, and whether the process
aborted (panic or `exit(1)`). -/
structure RunOut where
  trace : List Effect
  aborted : Bool
deriving DecidableEq

/-- Character-level model of Rust `str::trim` (drop whitespace from both
ends; on the ASCII whitespace relevant here the Rust and Lean notions of
whitespace agree). -/
def trimStr (s : String) : String :=
  String.mk (((s.data.dropWhile Char.isWhitespace).reverse.dropWhile Char.isWhitespace).reverse)

/-- Character-level model of Rust `str::starts_with` for a string pattern. -/
def startsWithStr (s pat : String) : Bool :=
  pat.data.isPrefixOf s.data

/-- Source `capitalize`: empty stays empty, otherwise the first character
is uppercased (its case mapping) and the rest left unchanged. -/
def capitalize (s : String) : String :=
  match s.data with
  | [] => ""
  | c :: cs => String.mk (c.toUpper :: cs)

/-- Rust `str::split` on a character predicate: the segments between
separator occurrences, empty segments retained.  On the empty input the
result is one empty segment, as in Rust. -/
def splitChar (p : Char → Bool) : List Char → List (List Char)
  | [] => [[]]
  | c :: cs =>
    match splitChar p cs with
    | [] => [[]]
    | seg :: segs => if p c then [] :: seg :: segs else (c :: seg) :: segs

/-- The separator predicate of `convert_name_to_module`:
underscore or dash. -/
def isSepChar (c : Char) : Bool := c == '_' || c == '-'

/-- Concatenation of a list of strings with no separator
(Rust `collect::<String>()`). -/
def concatStrings : List String → String
  | [] => ""
  | s :: rest => s ++ concatStrings rest

/-- Source `convert_name_to_module`: split by dash or underscore, then
capitalize each chunk before joining. -/
def convert_name_to_module (project_name : String) : String :=
  concatStrings ((splitChar isSepChar project_name.data).map (fun seg => capitalize (String.mk seg)))

/-- Second loop of `make_readme`: take lines until (exclusive) the next
line starting with `"## "`, or to end of document. -/
def takeUntilNextHeader : List String → List String
  | [] => []
  | l :: ls => if startsWithStr l "## " then [] else l :: takeUntilNextHeader ls

/-- Both loops of `make_readme`: skip lines until one whose trimmed
content is `"## Directory structure"`, include that line, then take lines
up to (exclusive) the next `"## "`-prefixed line or end of document.
If no line matches, the excerpt is empty. -/
def readmeExcerpt : List String → List String
  | [] => []
  | l :: ls =>
    if trimStr l = "## Directory structure" then l :: takeUntilNextHeader ls
    else readmeExcerpt ls

/-- Join a list of lines into file content, each line newline-terminated
(the `make_readme` loops push each line followed by a newline). -/
def linesToString : List String → String
  | [] => ""
  | l :: ls => l ++ "\n" ++ linesToString ls

/-- One entry of the git configuration, as git2 exposes it: the entry
name and value are each absent when not valid UTF-8. -/
structure ConfigEntry where
  entryName : Option String
  entryValue : Option String
deriving DecidableEq

/-- The data `get_author_email` consumes: opening the default config can
fail, requesting the `user` entries can fail, and each produced entry can
itself be an error (`none` in the list). -/
inductive GitConfig
  | openFail
  | entriesFail
  | entryList (entries : List (Option ConfigEntry))
deriving DecidableEq

/-- The entry loop of `get_author_email`, carrying the `name` and `email`
accumulators; any failing entry, entry name or entry value makes the
whole lookup `none`, and at the end both keys must have been seen. -/
def authorScan : List (Option ConfigEntry) → Option String → Option String → Option (String × String)
  | [], nameAcc, emailAcc =>
    match nameAcc, emailAcc with
    | some n, some e => some (n, e)
    | _, _ => none
  | none :: _, _, _ => none
  | some entry :: rest, nameAcc, emailAcc =>
    match entry.entryName, entry.entryValue with
    | some en, some v =>
      if en = "user.name" then authorScan rest (some v) emailAcc
      else if en = "user.email" then authorScan rest nameAcc (some v)
      else authorScan rest nameAcc emailAcc
    | _, _ => none

/-- Source `get_author_email`: best-effort lookup of `user.name` and
`user.email` from the global git configuration; any failure at any step
collapses to `none`. -/
def get_author_email : GitConfig → Option (String × String)
  | GitConfig.openFail => none
  | GitConfig.entriesFail => none
  | GitConfig.entryList es => authorScan es none none

/-- The embedded template files.  Modelled from the spec: the template
files under `templates/` and the master `README.md` are embedded with
`include_str!` at build time and are not part of the Rust source tree
given here, so their contents are abstract parameters.  `format!`
substitution into a fixed template is modelled by a function of the
substituted values; the gitignore template is modelled as fixed lines
around the `python_gitignore` placeholder line; the master document is
its list of lines.  A single `mainFile` field models that both the Julia
and the Python starter file embed the one file `templates/main`. -/
structure Templates where
  readmeHeader : String → String → String → String
  gitignorePre : List String
  gitignorePost : List String
  projectToml : String → String → String → String
  mainFile : String
  environmentYml : String → String → String
  masterReadme : List String

/-- The environment of one run: command-line arguments, pre-existing
filesystem paths, git configuration data, conda invocation outcome,
the `CONDA_PREFIX` variable, and the drawn UUID and current date. -/
structure Env where
  dirname : OsStr
  language : Option Lang
  nameOverride : Option String
  existing : List FPath
  gitConfig : GitConfig
  condaOk : Bool
  condaEnvVar : Option String
  uuid : String
  today : String

/-- Project-name resolution (main, lines 171-188): an explicit `--name`
override wins; otherwise the whole `dirname` argument interpreted as
UTF-8 text, failing when it is not valid UTF-8. -/
def resolve_project_name (nameOverride : Option String) (dirname : OsStr) : Except String String :=
  match nameOverride with
  | some n => Except.ok n
  | none =>
    if dirname.isUtf8 then Except.ok dirname.raw
    else Except.error ("Error: Project name " ++ dirname.raw ++ " is not a normal UTF-8 string")

/-- Source `DIRECTORIES`: the seven fixed subdirectory names, in order. -/
def DIRECTORIES : List String := ["src", "raw", "results", "paper", "tmp", "cache", "choices"]

/-- The subdirectory loop of `make_dirs`: create each subdirectory under
the root in order; a creation failure (path already exists) panics with a
message naming the root path. -/
def makeSubDirs (root : FPath) (rootRaw : String) : List String → List FPath → List Effect × Bool
  | [], _ => ([], false)
  | d :: ds, fs =>
    let sub := root ++ [d]
    if sub ∈ fs then ([Effect.errLine ("Error when creating sub-directory: " ++ rootRaw)], true)
    else
      let rest := makeSubDirs root rootRaw ds (sub :: fs)
      (Effect.mkdir sub :: rest.1, rest.2)

/-- Source `make_dirs`: create the root directory, then each of the seven
fixed subdirectories beneath it in order; any creation failure is fatal. -/
def make_dirs (fs : List FPath) (root : FPath) (rootRaw : String) : List Effect × Bool :=
  if root ∈ fs then
    ([Effect.errLine ("Error when creating main project directory: " ++ rootRaw)], true)
  else
    let rest := makeSubDirs root rootRaw DIRECTORIES (root :: fs)
    (Effect.mkdir root :: rest.1, rest.2)

/-- Source `conda_create`: run `conda create -n <name> -y`; report a
one-line success message if the command could be run, a one-line warning
otherwise; never abort. -/
def conda_create (condaOk : Bool) (project_name : String) : List Effect :=
  Effect.condaRun project_name ::
    (if condaOk then
      [Effect.outLine ("Created Conda environment \"" ++ project_name ++ "\"")]
    else
      [Effect.errLine ("Warning: Could not create Conda environment \"" ++ project_name ++ "\"")])

/-- Source `make_conda_yml`: if `CONDA_PREFIX` is unset, warn and write
nothing; otherwise write `environment.yml` under the root with the
project name and the path `<prefix>/envs/<project_name>` substituted into
the environment template. -/
def make_conda_yml (tpl : Templates) (condaEnvVar : Option String) (root : FPath)
    (project_name : String) : List Effect :=
  match condaEnvVar with
  | none =>
    [Effect.errLine "Warning: Could not get env variable $CONDA_PREFIX. Not writing \"environment.yml\" file."]
  | some pfx =>
    [Effect.fileWrite (root ++ ["environment.yml"])
      (tpl.environmentYml project_name (pathToString [pfx, "envs", project_name]))]

/-- The `python_gitignore` placeholder value (main, lines 204-207):
`"__pycache__"` exactly when the selected language is Python. -/
def pythonGitignoreValue : Option Lang → String
  | some Lang.python => "__pycache__"
  | _ => ""

/-- The lines of the rendered `.gitignore`: the fixed template lines with
the `python_gitignore` placeholder line substituted. -/
def gitignoreLines (tpl : Templates) (lang : Option Lang) : List String :=
  tpl.gitignorePre ++ [pythonGitignoreValue lang] ++ tpl.gitignorePost

/-- The `author` placeholder of the README template:
`"Author: <name>\n"` or empty. -/
def authorHeaderString : Option String → String
  | none => ""
  | some n => "Author: " ++ n ++ "\n"

/-- Source `make_readme` content: the rendered README header followed by
the excerpt of the master document, each excerpt line newline-terminated. -/
def make_readme_content (tpl : Templates) (project_name : String) (author : Option String)
    (date : String) : String :=
  tpl.readmeHeader project_name (authorHeaderString author) date
    ++ linesToString (readmeExcerpt tpl.masterReadme)

/-- The `author` placeholder of the Julia project template:
`"<name> <<email>>"` or `"Unknown author"`. -/
def juliaAuthorString : Option (String × String) → String
  | none => "Unknown author"
  | some (n, e) => n ++ " <" ++ e ++ ">"

/-- Source `make_julia_project` content: the project template with the
module name, the drawn UUID and the author string substituted. -/
def make_julia_project_content (tpl : Templates) (module_name uuid : String)
    (author_email : Option (String × String)) : String :=
  tpl.projectToml module_name uuid (juliaAuthorString author_email)

/-- The warning printed when the author lookup comes back absent
(main, lines 193-200). -/
def authorWarning : String :=
  "Warning: Could not extract author name and email from global git config.\n"
    ++ "Set name and mail with:\n"
    ++ "git config --global user.name \"FIRST_NAME LAST_NAME\"\n"
    ++ "git config --global user.mail \"EXAMPLE@EMAIL.COM\"\n"

/-- The author-warning part of the trace: one warning exactly when the
lookup is absent. -/
def authorWarnPart (cfg : GitConfig) : List Effect :=
  if (get_author_email cfg).isNone then [Effect.errLine authorWarning] else []

/-- The language-specific tail of the run (main, lines 220-239): nothing
for no language; for Julia the starter file `src/<ModuleName>.jl` then
`Project.toml`; for Python the starter file `src/main.py`, then the conda
invocation, then the environment file step. -/
def langPart (tpl : Templates) (env : Env) (project_name : String) : List Effect :=
  match env.language with
  | none => []
  | some Lang.julia =>
    [Effect.fileWrite [env.dirname.raw, "src", convert_name_to_module project_name ++ ".jl"]
        tpl.mainFile,
      Effect.fileWrite [env.dirname.raw, "Project.toml"]
        (make_julia_project_content tpl (convert_name_to_module project_name) env.uuid
          (get_author_email env.gitConfig))]
  | some Lang.python =>
    Effect.fileWrite [env.dirname.raw, "src", "main.py"] tpl.mainFile ::
      (conda_create env.condaOk project_name
        ++ make_conda_yml tpl env.condaEnvVar [env.dirname.raw] project_name)

/-- Source `main`: resolve the project name (exit on invalid UTF-8 or
empty name), create the directories (fatal on failure), init the git
repository, best-effort author lookup with a warning on absence, write
`.gitignore` and `README.md`, then the language-specific tail. -/
def runMain (tpl : Templates) (env : Env) : RunOut :=
  match resolve_project_name env.nameOverride env.dirname with
  | Except.error msg => ⟨[Effect.errLine msg], true⟩
  | Except.ok project_name =>
    if project_name = "" then ⟨[Effect.errLine "Error: Project name cannot be empty"], true⟩
    else
      let dirsOut := make_dirs env.existing [env.dirname.raw] env.dirname.raw
      if dirsOut.2 then ⟨dirsOut.1, true⟩
      else
        ⟨dirsOut.1
          ++ [Effect.gitInit [env.dirname.raw]]
          ++ authorWarnPart env.gitConfig
          ++ [Effect.fileWrite [env.dirname.raw, ".gitignore"]
                (linesToString (gitignoreLines tpl env.language)),
              Effect.fileWrite [env.dirname.raw, "README.md"]
                (make_readme_content tpl (capitalize project_name)
                  ((get_author_email env.gitConfig).map Prod.fst) env.today)]
          ++ langPart tpl env project_name, false⟩

/-- Is an effect a directory creation? -/
def isMkdirEffect : Effect → Bool
  | Effect.mkdir _ => true
  | _ => false

/-- An entry the `get_author_email` loop cannot read: the entry itself
errored, or its name or value is not readable. -/
def badEntry : Option ConfigEntry → Bool
  | none => true
  | some e => e.entryName.isNone || e.entryValue.isNone

/-- The value the `get_author_email` loop is left with for key `k` after
scanning a list of readable entries: the value of the last entry named
`k`, starting from accumulator `acc`. -/
def lastKeyValue (k : String) : List (Option ConfigEntry) → Option String → Option String
  | [], acc => acc
  | none :: rest, acc => lastKeyValue k rest acc
  | some e :: rest, acc =>
    if e.entryName = some k then lastKeyValue k rest e.entryValue
    else lastKeyValue k rest acc

/-- The configured value for key `k`: the value of the last readable
entry named `k`, if any. -/
def scanUserKey (k : String) (es : List (Option ConfigEntry)) : Option String :=
  lastKeyValue k es none

/-- The final segment of a path string, as claim C1 reads it: the part
after the last `/`. -/
def finalPathSegment (s : String) : String :=
  String.mk (go s.data [])
where
  go : List Char → List Char → List Char
    | [], acc => acc.reverse
    | c :: cs, acc => if c = '/' then go cs [] else go cs (c :: acc)

/-- The README excerpt as claim C3 literally reads it: start at the first
line EQUAL to `"## Directory structure"` (no trimming), up to (exclusive)
the next line starting with `"## "`, or end of document. -/
def claimedExcerpt : List String → List String
  | [] => []
  | l :: ls =>
    if l = "## Directory structure" then l :: takeUntilNextHeader ls
    else claimedExcerpt ls

/-- A concrete template instantiation used by witnesses. -/
def sampleTemplates : Templates :=
  ⟨fun p a d => "HEADER " ++ p ++ a ++ d ++ "\n",
    ["tmp"], ["cache"],
    fun m u a => m ++ u ++ a,
    "MAIN",
    fun n p => n ++ p,
    ["# T", "## Directory structure", "x", "## Next", "y"]⟩

/-- A concrete template instantiation whose master document has a
whitespace-padded section header before an exact one. -/
def cexTemplates : Templates :=
  ⟨fun p a d => "HEADER " ++ p ++ a ++ d ++ "\n",
    [], [],
    fun m u a => m ++ u ++ a,
    "MAIN",
    fun n p => n ++ p,
    ["  ## Directory structure", "a", "## B", "## Directory structure", "c"]⟩

/-- A concrete Python-run environment used by witnesses. -/
def samplePyEnv : Env :=
  ⟨⟨"proj", true⟩, some Lang.python, some "proj", [], GitConfig.entryList [], true, some "P", "u", "d"⟩

/-- A concrete Python-run environment with no conda available and no
`CONDA_PREFIX`. -/
def samplePyEnvNoConda : Env :=
  ⟨⟨"proj", true⟩, some Lang.python, some "proj", [], GitConfig.openFail, false, none, "u", "d"⟩

/-- A concrete Julia-run environment used by witnesses. -/
def sampleJlEnv : Env :=
  ⟨⟨"jlproj", true⟩, some Lang.julia, none, [], GitConfig.openFail, true, none, "u", "d"⟩

/-- A concrete environment whose target path already exists. -/
def sampleAbortEnv : Env :=
  ⟨⟨"proj", true⟩, none, some "proj", [["proj"]], GitConfig.openFail, true, none, "u", "d"⟩

theorem makeSubDirs_ok_trace (root : FPath) (rootRaw : String) (ds : List String) :
    ∀ fs : List FPath, (makeSubDirs root rootRaw ds fs).2 = false →
      (makeSubDirs root rootRaw ds fs).1 = ds.map (fun d => Effect.mkdir (root ++ [d])) := by
  induction ds with
  | nil => intro fs _; rfl
  | cons d ds ih =>
    intro fs h
    by_cases hmem : root ++ [d] ∈ fs
    · simp [makeSubDirs, hmem] at h
    · simp only [makeSubDirs, if_neg hmem] at h ⊢
      simp only [List.map_cons, List.cons.injEq, true_and]
      exact ih _ h

theorem make_dirs_ok_trace (fs : List FPath) (root : FPath) (rootRaw : String)
    (h : (make_dirs fs root rootRaw).2 = false) :
    (make_dirs fs root rootRaw).1 =
      Effect.mkdir root :: DIRECTORIES.map (fun d => Effect.mkdir (root ++ [d])) := by
  by_cases hmem : root ∈ fs
  · simp [make_dirs, hmem] at h
  · simp only [make_dirs, if_neg hmem] at h ⊢
    simp only [List.cons.injEq, true_and]
    exact makeSubDirs_ok_trace _ _ _ _ h

theorem runMain_ok (tpl : Templates) (env : Env) (pn : String)
    (hres : resolve_project_name env.nameOverride env.dirname = Except.ok pn)
    (hne : pn ≠ "")
    (hdirs : (make_dirs env.existing [env.dirname.raw] env.dirname.raw).2 = false) :
    runMain tpl env =
      ⟨(make_dirs env.existing [env.dirname.raw] env.dirname.raw).1
        ++ [Effect.gitInit [env.dirname.raw]]
        ++ authorWarnPart env.gitConfig
        ++ [Effect.fileWrite [env.dirname.raw, ".gitignore"]
              (linesToString (gitignoreLines tpl env.language)),
            Effect.fileWrite [env.dirname.raw, "README.md"]
              (make_readme_content tpl (capitalize pn)
                ((get_author_email env.gitConfig).map Prod.fst) env.today)]
        ++ langPart tpl env pn, false⟩ := by
  simp only [runMain, hres, if_neg hne, hdirs, Bool.false_eq_true, if_false, ite_false]

theorem runMain_abort_existing (tpl : Templates) (env : Env) (pn : String)
    (hres : resolve_project_name env.nameOverride env.dirname = Except.ok pn)
    (hne : pn ≠ "")
    (hmem : [env.dirname.raw] ∈ env.existing) :
    runMain tpl env =
      ⟨[Effect.errLine ("Error when creating main project directory: " ++ env.dirname.raw)],
        true⟩ := by
  simp only [runMain, hres, if_neg hne, make_dirs, if_pos hmem, if_true, ite_true]

theorem splitChar_shape (p : Char → Bool) :
    ∀ l : List Char, ∃ s ss, splitChar p l = s :: ss
  | [] => ⟨[], [], rfl⟩
  | c :: cs => by
    obtain ⟨s, ss, h⟩ := splitChar_shape p cs
    cases hp : p c
    · exact ⟨c :: s, ss, by simp [splitChar, h, hp]⟩
    · exact ⟨[], s :: ss, by simp [splitChar, h, hp]⟩

theorem splitChar_append_sep (p : Char → Bool) (c : Char) (hc : p c = true) :
    ∀ xs ys : List Char, splitChar p (xs ++ c :: ys) = splitChar p xs ++ splitChar p ys := by
  intro xs
  induction xs with
  | nil =>
    intro ys
    obtain ⟨s, ss, h⟩ := splitChar_shape p ys
    simp [splitChar, h, hc]
  | cons x xs ih =>
    intro ys
    obtain ⟨s, ss, h⟩ := splitChar_shape p xs
    have hfull := ih ys
    rw [h] at hfull
    cases hp : p x
    · rw [List.cons_append, splitChar, hfull]
      rw [splitChar, h]
      simp [hp]
    · rw [List.cons_append, splitChar, hfull]
      rw [splitChar, h]
      simp [hp]

theorem splitChar_no_sep (p : Char → Bool) :
    ∀ l : List Char, (∀ c ∈ l, p c = false) → splitChar p l = [l]
  | [], _ => rfl
  | c :: cs, h => by
    have hc : p c = false := h c (by simp)
    have hrest := splitChar_no_sep p cs (fun x hx => h x (by simp [hx]))
    simp [splitChar, hrest, hc]

theorem concatStrings_append (A B : List String) :
    concatStrings (A ++ B) = concatStrings A ++ concatStrings B := by
  induction A with
  | nil => simp [concatStrings, String.empty_append]
  | cons s rest ih => simp [concatStrings, ih, String.append_assoc]

theorem string_eta (s : String) : String.mk s.data = s := rfl

theorem convert_append_sep (c : Char) (hc : isSepChar c = true) (s t : String) :
    convert_name_to_module (s ++ String.mk [c] ++ t)
      = convert_name_to_module s ++ convert_name_to_module t := by
  unfold convert_name_to_module
  have hd : (s ++ String.mk [c] ++ t).data = s.data ++ c :: t.data := by
    simp [String.data_append]
  rw [hd, splitChar_append_sep _ _ hc, List.map_append, concatStrings_append]

theorem convert_no_sep (s : String) (h : ∀ c ∈ s.data, isSepChar c = false) :
    convert_name_to_module s = capitalize s := by
  unfold convert_name_to_module
  rw [splitChar_no_sep _ _ h]
  simp [concatStrings, String.append_empty, string_eta]

theorem readmeExcerpt_skip (pre rest : List String)
    (h : ∀ l ∈ pre, trimStr l ≠ "## Directory structure") :
    readmeExcerpt (pre ++ rest) = readmeExcerpt rest := by
  induction pre with
  | nil => rfl
  | cons l ls ih =>
    have hl := h l (by simp)
    simp only [List.cons_append, readmeExcerpt, if_neg hl]
    exact ih (fun x hx => h x (by simp [hx]))

theorem takeUntil_no_header (sec : List String)
    (h : ∀ l ∈ sec, startsWithStr l "## " = false) :
    takeUntilNextHeader sec = sec := by
  induction sec with
  | nil => rfl
  | cons l ls ih =>
    have hl := h l (by simp)
    simp only [takeUntilNextHeader, hl, Bool.false_eq_true, if_false, List.cons.injEq, true_and,
      ite_false]
    exact ih (fun x hx => h x (by simp [hx]))

theorem takeUntil_stop (sec : List String) (nexthdr : String) (after : List String)
    (h : ∀ l ∈ sec, startsWithStr l "## " = false)
    (hn : startsWithStr nexthdr "## " = true) :
    takeUntilNextHeader (sec ++ nexthdr :: after) = sec := by
  induction sec with
  | nil => simp [takeUntilNextHeader, hn]
  | cons l ls ih =>
    have hl := h l (by simp)
    simp only [List.cons_append, takeUntilNextHeader, hl, Bool.false_eq_true, if_false,
      List.cons.injEq, true_and, ite_false]
    exact ih (fun x hx => h x (by simp [hx]))

theorem authorScan_bad :
    ∀ (es : List (Option ConfigEntry)) (n0 e0 : Option String),
      (∃ oe ∈ es, badEntry oe = true) → authorScan es n0 e0 = none := by
  intro es
  induction es with
  | nil => intro n0 e0 h; simp at h
  | cons oe rest ih =>
    intro n0 e0 h
    obtain ⟨w, hw, hbad⟩ := h
    cases oe with
    | none => rfl
    | some e =>
      cases hn : e.entryName with
      | none => simp [authorScan, hn]
      | some en =>
        cases hv : e.entryValue with
        | none => simp [authorScan, hn, hv]
        | some v =>
          have hwrest : w ∈ rest := by
            rcases List.mem_cons.mp hw with h1 | h1
            · subst h1; simp [badEntry, hn, hv] at hbad
            · exact h1
          have hrec : ∀ a b : Option String, authorScan rest a b = none :=
            fun a b => ih a b ⟨w, hwrest, hbad⟩
          simp only [authorScan, hn, hv]
          by_cases h1 : en = "user.name"
          · simp [h1, hrec]
          · by_cases h2 : en = "user.email" <;> simp [h1, h2, hrec]

theorem authorScan_good :
    ∀ (es : List (Option ConfigEntry)) (n0 e0 : Option String),
      (∀ oe ∈ es, badEntry oe = false) →
      authorScan es n0 e0 =
        (lastKeyValue "user.name" es n0).bind
          (fun n => (lastKeyValue "user.email" es e0).map (fun e => (n, e))) := by
  intro es
  induction es with
  | nil =>
    intro n0 e0 _
    cases n0 <;> cases e0 <;> rfl
  | cons oe rest ih =>
    intro n0 e0 h
    cases oe with
    | none => have hbad := h none (by simp); simp [badEntry] at hbad
    | some e =>
      have hgood := h (some e) (by simp)
      cases hn : e.entryName with
      | none => simp [badEntry, hn] at hgood
      | some en =>
        cases hv : e.entryValue with
        | none => simp [badEntry, hn, hv] at hgood
        | some v =>
          have hrest : ∀ oe ∈ rest, badEntry oe = false := fun x hx => h x (by simp [hx])
          simp only [authorScan, lastKeyValue, hn, hv]
          by_cases h1 : en = "user.name"
          · subst h1
            simp [ih (some v) e0 hrest]
          · by_cases h2 : en = "user.email"
            · subst h2
              simp [h1, ih n0 (some v) hrest]
            · simp [h1, h2, ih n0 e0 hrest]

/-- Claim C1, as stated, is false: with no name override the resolved
project name is the WHOLE target path, not its final segment.  At target
path `foo/bar-baz` the code resolves the name to `"foo/bar-baz"`, which
differs from the final path segment `"bar-baz"`, and its capitalized
display form is not `"Bar-baz"`. -/
theorem C1_counterexample :
    resolve_project_name none ⟨"foo/bar-baz", true⟩ = Except.ok "foo/bar-baz"
      ∧ "foo/bar-baz" ≠ finalPathSegment "foo/bar-baz"
      ∧ capitalize "foo/bar-baz" ≠ "Bar-baz" :=
  ⟨rfl, by decide, by decide⟩

/-- Claim C1 (amended): when no name override is supplied, the resolved
project name equals the ENTIRE target path interpreted as UTF-8 text; in
particular, for target path `foo/bar-baz` with no name override, the
resolved project name is `"foo/bar-baz"` and the capitalized display
name is `"Foo/bar-baz"`. -/
theorem C1_name_is_whole_path :
    (∀ d : OsStr, d.isUtf8 = true → resolve_project_name none d = Except.ok d.raw)
      ∧ resolve_project_name none ⟨"foo/bar-baz", true⟩ = Except.ok "foo/bar-baz"
      ∧ capitalize "foo/bar-baz" = "Foo/bar-baz" := by
  refine ⟨fun d hd => ?_, rfl, by decide⟩
  simp [resolve_project_name, hd]

/-- Claim C1 witness: the amended theorem applied at a concrete
UTF-8 path. -/
theorem C1_witness :
    resolve_project_name none ⟨"proj", true⟩ = Except.ok "proj" :=
  C1_name_is_whole_path.1 ⟨"proj", true⟩ rfl

/-- Claim C5: `convert_name_to_module` splits its input on every
occurrence of `-` or `_` (retaining empty segments, which `capitalize`
maps to empty), capitalizes each segment, and concatenates the results
with no separator: it maps `"my-cool_project"` to `"MyCoolProject"`,
`""` to `""`, `"-a"` to `"A"`, it distributes over every `-` and `_`
occurrence, and on separator-free input it is exactly `capitalize`. -/
theorem C5_module_name :
    convert_name_to_module "my-cool_project" = "MyCoolProject"
      ∧ convert_name_to_module "" = ""
      ∧ convert_name_to_module "-a" = "A"
      ∧ (∀ s t : String, convert_name_to_module (s ++ "-" ++ t)
            = convert_name_to_module s ++ convert_name_to_module t)
      ∧ (∀ s t : String, convert_name_to_module (s ++ "_" ++ t)
            = convert_name_to_module s ++ convert_name_to_module t)
      ∧ (∀ s : String, (∀ c ∈ s.data, isSepChar c = false) →
            convert_name_to_module s = capitalize s) := by
  refine ⟨by decide, by decide, by decide, fun s t => ?_, fun s t => ?_, convert_no_sep⟩
  · exact convert_append_sep '-' (by decide) s t
  · exact convert_append_sep '_' (by decide) s t

/-- Claim C5 witness: the separator-free clause applied at `"abc"` and
the distribution clause applied at concrete strings. -/
theorem C5_witness :
    convert_name_to_module "abc" = capitalize "abc"
      ∧ convert_name_to_module ("ab" ++ "-" ++ "c_d")
          = convert_name_to_module "ab" ++ convert_name_to_module "c_d" :=
  ⟨C5_module_name.2.2.2.2.2 "abc" (by decide),
    C5_module_name.2.2.2.1 "ab" "c_d"⟩

/-- Claim C3, as stated, is false: `make_readme` matches the section
start by comparing the TRIMMED line against `"## Directory structure"`,
not by line equality.  On a master document whose first match is a
whitespace-padded header line, the generated README differs from the
claimed content (the lines from the first line EQUAL to the header). -/
theorem C3_counterexample :
    make_readme_content cexTemplates "P" none "D"
      ≠ cexTemplates.readmeHeader "P" (authorHeaderString none) "D"
          ++ linesToString (claimedExcerpt cexTemplates.masterReadme) := by
  decide

/-- Claim C3 (amended): the generated README contains, after the
templated header, exactly the lines of the embedded master document
starting at the first line WHOSE TRIMMED CONTENT equals
`"## Directory structure"` (that line included verbatim) up to but
excluding the next line starting with `"## "`; if no such following
header line exists, the excerpt runs to end-of-document. -/
theorem C3_readme_excerpt (tpl : Templates) (pn date : String) (a : Option String)
    (pre sec after : List String) (hdr nexthdr : String)
    (hpre : ∀ l ∈ pre, trimStr l ≠ "## Directory structure")
    (hh : trimStr hdr = "## Directory structure")
    (hsec : ∀ l ∈ sec, startsWithStr l "## " = false) :
    (tpl.masterReadme = pre ++ hdr :: (sec ++ nexthdr :: after) →
        startsWithStr nexthdr "## " = true →
        make_readme_content tpl pn a date =
          tpl.readmeHeader pn (authorHeaderString a) date ++ linesToString (hdr :: sec))
      ∧ (tpl.masterReadme = pre ++ hdr :: sec →
        make_readme_content tpl pn a date =
          tpl.readmeHeader pn (authorHeaderString a) date ++ linesToString (hdr :: sec)) := by
  constructor
  · intro hmaster hn
    unfold make_readme_content
    rw [hmaster, readmeExcerpt_skip pre _ hpre]
    simp only [readmeExcerpt, if_pos hh]
    rw [takeUntil_stop sec nexthdr after hsec hn]
  · intro hmaster
    unfold make_readme_content
    rw [hmaster, readmeExcerpt_skip pre _ hpre]
    simp only [readmeExcerpt, if_pos hh]
    rw [takeUntil_no_header sec hsec]

/-- Claim C3 witness: the amended theorem applied to a concrete master
document with a following header line. -/
theorem C3_witness :
    make_readme_content sampleTemplates "P" none "D"
      = sampleTemplates.readmeHeader "P" (authorHeaderString none) "D"
          ++ linesToString ["## Directory structure", "x"] :=
  (C3_readme_excerpt sampleTemplates "P" "D" none ["# T"] ["x"] ["y"]
      "## Directory structure" "## Next"
      (by decide) (by decide) (by decide)).1 rfl (by decide)

theorem filter_mkdir_warn (cfg : GitConfig) :
    (authorWarnPart cfg).filter isMkdirEffect = [] := by
  unfold authorWarnPart
  split <;> rfl

theorem authorWarnPart_subset (cfg : GitConfig) (e : Effect) (h : e ∈ authorWarnPart cfg) :
    e = Effect.errLine authorWarning := by
  unfold authorWarnPart at h
  split at h
  · simpa using h
  · simp at h

theorem filter_mkdir_lang (tpl : Templates) (env : Env) (pn : String) :
    (langPart tpl env pn).filter isMkdirEffect = [] := by
  obtain ⟨dn, lang, no, ex, gc, co, cev, uu, td⟩ := env
  unfold langPart
  cases lang with
  | none => rfl
  | some l =>
    cases l with
    | julia => rfl
    | python =>
      unfold conda_create make_conda_yml
      cases co <;> cases cev <;> rfl

/-- Claim C2: for every run that succeeds at the directory-building step,
the directory builder creates the root directory and then exactly the
seven fixed subdirectories `src, raw, results, paper, tmp, cache,
choices` directly beneath it, in that listed order, regardless of
language selection — eight directories in total. -/
theorem C2_directory_layout (tpl : Templates) (env : Env) (pn : String)
    (hres : resolve_project_name env.nameOverride env.dirname = Except.ok pn)
    (hne : pn ≠ "")
    (hdirs : (make_dirs env.existing [env.dirname.raw] env.dirname.raw).2 = false) :
    (runMain tpl env).trace.filter isMkdirEffect =
        Effect.mkdir [env.dirname.raw] ::
          DIRECTORIES.map (fun d => Effect.mkdir [env.dirname.raw, d])
      ∧ ((runMain tpl env).trace.filter isMkdirEffect).length = 8 := by
  have hmain : (runMain tpl env).trace.filter isMkdirEffect =
      Effect.mkdir [env.dirname.raw] ::
        DIRECTORIES.map (fun d => Effect.mkdir [env.dirname.raw, d]) := by
    rw [runMain_ok tpl env pn hres hne hdirs]
    show ((make_dirs env.existing [env.dirname.raw] env.dirname.raw).1
        ++ _ ++ _ ++ _ ++ _).filter isMkdirEffect = _
    rw [make_dirs_ok_trace env.existing [env.dirname.raw] env.dirname.raw hdirs]
    simp [List.filter_append, filter_mkdir_warn, filter_mkdir_lang, isMkdirEffect,
      DIRECTORIES, List.filter]
  exact ⟨hmain, by rw [hmain]; simp [DIRECTORIES]⟩

/-- Claim C2 witness: a concrete successful run creates exactly the
root plus the seven listed subdirectories, in order. -/
theorem C2_witness :
    (runMain sampleTemplates samplePyEnv).trace.filter isMkdirEffect =
        Effect.mkdir [samplePyEnv.dirname.raw] ::
          DIRECTORIES.map (fun d => Effect.mkdir [samplePyEnv.dirname.raw, d]) :=
  (C2_directory_layout sampleTemplates samplePyEnv "proj" rfl (by decide) (by decide)).1

/-- Claim C4: running against a target path that already exists fails
fatally at the directory-creation step: the run aborts with the
directory-creation error as its only effect, so no file is written and
the git repository is not initialized. -/
theorem C4_existing_path (tpl : Templates) (env : Env) (pn : String)
    (hres : resolve_project_name env.nameOverride env.dirname = Except.ok pn)
    (hne : pn ≠ "")
    (hmem : [env.dirname.raw] ∈ env.existing) :
    (runMain tpl env).aborted = true
      ∧ (runMain tpl env).trace
          = [Effect.errLine ("Error when creating main project directory: " ++ env.dirname.raw)]
      ∧ (∀ p c, Effect.fileWrite p c ∉ (runMain tpl env).trace)
      ∧ (∀ p, Effect.gitInit p ∉ (runMain tpl env).trace) := by
  rw [runMain_abort_existing tpl env pn hres hne hmem]
  refine ⟨rfl, rfl, ?_, ?_⟩ <;> simp

/-- Claim C4 witness: a concrete run against an existing path aborts
with only the directory-creation error. -/
theorem C4_witness :
    (runMain sampleTemplates sampleAbortEnv).aborted = true
      ∧ (runMain sampleTemplates sampleAbortEnv).trace
          = [Effect.errLine ("Error when creating main project directory: "
              ++ sampleAbortEnv.dirname.raw)] :=
  ⟨(C4_existing_path sampleTemplates sampleAbortEnv "proj" rfl (by decide) (by decide)).1,
    (C4_existing_path sampleTemplates sampleAbortEnv "proj" rfl (by decide) (by decide)).2.1⟩

/-- Claim C6: provided the fixed gitignore template lines do not
themselves contain a `__pycache__` line, the written `.gitignore`
contains the literal line `__pycache__` if and only if the selected
language is Python; for Julia runs and runs with no language the
placeholder substitutes to the empty string, so no such line occurs. -/
theorem C6_gitignore (tpl : Templates) (env : Env) (pn : String)
    (hres : resolve_project_name env.nameOverride env.dirname = Except.ok pn)
    (hne : pn ≠ "")
    (hdirs : (make_dirs env.existing [env.dirname.raw] env.dirname.raw).2 = false)
    (hpre : "__pycache__" ∉ tpl.gitignorePre)
    (hpost : "__pycache__" ∉ tpl.gitignorePost) :
    Effect.fileWrite [env.dirname.raw, ".gitignore"]
        (linesToString (gitignoreLines tpl env.language)) ∈ (runMain tpl env).trace
      ∧ ("__pycache__" ∈ gitignoreLines tpl env.language ↔ env.language = some Lang.python) := by
  constructor
  · rw [runMain_ok tpl env pn hres hne hdirs]
    simp [List.mem_append]
  · cases hl : env.language with
    | none => simp [gitignoreLines, pythonGitignoreValue, hpre, hpost]
    | some l =>
      cases l with
      | python => simp [gitignoreLines, pythonGitignoreValue]
      | julia => simp [gitignoreLines, pythonGitignoreValue, hpre, hpost]

/-- Claim C6 witness: in a concrete Python run the `.gitignore` write is
in the trace and its lines contain `__pycache__`; the iff applies. -/
theorem C6_witness :
    Effect.fileWrite [samplePyEnv.dirname.raw, ".gitignore"]
        (linesToString (gitignoreLines sampleTemplates samplePyEnv.language))
        ∈ (runMain sampleTemplates samplePyEnv).trace
      ∧ ("__pycache__" ∈ gitignoreLines sampleTemplates samplePyEnv.language
          ↔ samplePyEnv.language = some Lang.python) :=
  C6_gitignore sampleTemplates samplePyEnv "proj" rfl (by decide) (by decide)
    (by decide) (by decide)

/-- Claim C7: the author lookup yields a `(name, email)` pair exactly
when the whole scan succeeds and both `user.name` and `user.email` are
readable (the configured values), and collapses to absent on any failure
at any step (failed config open, failed entry listing, or any unreadable
entry); on absence the explanatory warning is printed and the run still
completes. -/
theorem C7_author_lookup :
    (get_author_email GitConfig.openFail = none
        ∧ get_author_email GitConfig.entriesFail = none)
      ∧ (∀ es, (∃ oe ∈ es, badEntry oe = true) →
            get_author_email (GitConfig.entryList es) = none)
      ∧ (∀ es, (∀ oe ∈ es, badEntry oe = false) →
            get_author_email (GitConfig.entryList es) =
              (scanUserKey "user.name" es).bind
                (fun n => (scanUserKey "user.email" es).map (fun e => (n, e))))
      ∧ (∀ (tpl : Templates) (env : Env) (pn : String),
            resolve_project_name env.nameOverride env.dirname = Except.ok pn → pn ≠ "" →
            (make_dirs env.existing [env.dirname.raw] env.dirname.raw).2 = false →
            get_author_email env.gitConfig = none →
            Effect.errLine authorWarning ∈ (runMain tpl env).trace
              ∧ (runMain tpl env).aborted = false) := by
  refine ⟨⟨rfl, rfl⟩, fun es h => authorScan_bad es none none h,
    fun es h => authorScan_good es none none h, ?_⟩
  intro tpl env pn hres hne hdirs hnone
  rw [runMain_ok tpl env pn hres hne hdirs]
  exact ⟨by simp [authorWarnPart, hnone, List.mem_append], rfl⟩

/-- Claim C7 witness: a failing entry collapses the lookup, a readable
config yields the configured pair, and on a concrete run with a failed
config open the warning is in the trace and the run completes. -/
theorem C7_witness :
    get_author_email (GitConfig.entryList [none]) = none
      ∧ get_author_email (GitConfig.entryList
            [some ⟨some "user.name", some "N"⟩, some ⟨some "user.email", some "E"⟩])
          = some ("N", "E")
      ∧ Effect.errLine authorWarning ∈ (runMain sampleTemplates samplePyEnvNoConda).trace
      ∧ (runMain sampleTemplates samplePyEnvNoConda).aborted = false := by
  refine ⟨C7_author_lookup.2.1 [none] ⟨none, by decide, rfl⟩, ?_, ?_, ?_⟩
  · rw [C7_author_lookup.2.2.1
      [some ⟨some "user.name", some "N"⟩, some ⟨some "user.email", some "E"⟩] (by decide)]
    decide
  · exact (C7_author_lookup.2.2.2 sampleTemplates samplePyEnvNoConda "proj"
      rfl (by decide) (by decide) rfl).1
  · exact (C7_author_lookup.2.2.2 sampleTemplates samplePyEnvNoConda "proj"
      rfl (by decide) (by decide) rfl).2

/-- Claim C8: on the Python path the conda invocation reports its
outcome with a one-line message (success line when the command could be
run, warning line otherwise), never aborts the run, and the remaining
step (the environment-file step) still occurs either way. -/
theorem C8_conda_report (tpl : Templates) (env : Env) (pn : String)
    (hres : resolve_project_name env.nameOverride env.dirname = Except.ok pn)
    (hne : pn ≠ "")
    (hdirs : (make_dirs env.existing [env.dirname.raw] env.dirname.raw).2 = false)
    (hlang : env.language = some Lang.python) :
    (runMain tpl env).aborted = false
      ∧ (env.condaOk = true →
          Effect.outLine ("Created Conda environment \"" ++ pn ++ "\"")
            ∈ (runMain tpl env).trace)
      ∧ (env.condaOk = false →
          Effect.errLine ("Warning: Could not create Conda environment \"" ++ pn ++ "\"")
            ∈ (runMain tpl env).trace)
      ∧ (∀ e ∈ make_conda_yml tpl env.condaEnvVar [env.dirname.raw] pn,
          e ∈ (runMain tpl env).trace) := by
  rw [runMain_ok tpl env pn hres hne hdirs]
  refine ⟨rfl, fun hc => ?_, fun hc => ?_, fun e he => ?_⟩
  · simp [langPart, hlang, conda_create, hc, List.mem_append]
  · simp [langPart, hlang, conda_create, hc, List.mem_append]
  · simp only [langPart, hlang, List.mem_append, List.mem_cons]
    tauto

/-- Claim C8 witness: in a concrete Python run with conda unavailable,
the warning line is in the trace and the run still completes. -/
theorem C8_witness :
    (runMain sampleTemplates samplePyEnvNoConda).aborted = false
      ∧ Effect.errLine ("Warning: Could not create Conda environment \"" ++ "proj" ++ "\"")
          ∈ (runMain sampleTemplates samplePyEnvNoConda).trace :=
  ⟨(C8_conda_report sampleTemplates samplePyEnvNoConda "proj" rfl (by decide) (by decide) rfl).1,
    (C8_conda_report sampleTemplates samplePyEnvNoConda "proj" rfl (by decide) (by decide) rfl).2.2.1
      rfl⟩

/-- Claim C10: the Julia starter file `src/<ModuleName>.jl` and the
Python starter file `src/main.py` are written with identical static
content: both branches write the one embedded `templates/main` content
(`Templates.mainFile`), independent of the selected language. -/
theorem C10_same_starter_content (tpl : Templates) (env1 env2 : Env) (pn1 pn2 : String)
    (hres1 : resolve_project_name env1.nameOverride env1.dirname = Except.ok pn1)
    (hne1 : pn1 ≠ "")
    (hdirs1 : (make_dirs env1.existing [env1.dirname.raw] env1.dirname.raw).2 = false)
    (hl1 : env1.language = some Lang.julia)
    (hres2 : resolve_project_name env2.nameOverride env2.dirname = Except.ok pn2)
    (hne2 : pn2 ≠ "")
    (hdirs2 : (make_dirs env2.existing [env2.dirname.raw] env2.dirname.raw).2 = false)
    (hl2 : env2.language = some Lang.python) :
    Effect.fileWrite [env1.dirname.raw, "src", convert_name_to_module pn1 ++ ".jl"] tpl.mainFile
        ∈ (runMain tpl env1).trace
      ∧ Effect.fileWrite [env2.dirname.raw, "src", "main.py"] tpl.mainFile
        ∈ (runMain tpl env2).trace := by
  constructor
  · rw [runMain_ok tpl env1 pn1 hres1 hne1 hdirs1]
    simp [langPart, hl1, List.mem_append]
  · rw [runMain_ok tpl env2 pn2 hres2 hne2 hdirs2]
    simp [langPart, hl2, List.mem_append]

/-- Claim C10 witness: concrete Julia and Python runs write their
starter files with the same embedded content. -/
theorem C10_witness :
    Effect.fileWrite [sampleJlEnv.dirname.raw, "src", convert_name_to_module "jlproj" ++ ".jl"]
        sampleTemplates.mainFile ∈ (runMain sampleTemplates sampleJlEnv).trace
      ∧ Effect.fileWrite [samplePyEnv.dirname.raw, "src", "main.py"] sampleTemplates.mainFile
        ∈ (runMain sampleTemplates samplePyEnv).trace :=
  C10_same_starter_content sampleTemplates sampleJlEnv samplePyEnv "jlproj" "proj"
    rfl (by decide) (by decide) rfl rfl (by decide) (by decide) rfl
/-- Claim C9: on the Python path, if `CONDA_PREFIX` is unset the warning
is emitted, no `environment.yml` is written, and every other step still
completes; if it is set, `environment.yml` is written under the root
with the project name and the computed path `<prefix>/envs/<name>`
substituted into the environment template. -/
theorem C9_conda_yml (tpl : Templates) (env : Env) (pn : String)
    (hres : resolve_project_name env.nameOverride env.dirname = Except.ok pn)
    (hne : pn ≠ "")
    (hdirs : (make_dirs env.existing [env.dirname.raw] env.dirname.raw).2 = false)
    (hlang : env.language = some Lang.python) :
    (env.condaEnvVar = none →
        Effect.errLine
            "Warning: Could not get env variable $CONDA_PREFIX. Not writing \"environment.yml\" file."
            ∈ (runMain tpl env).trace
          ∧ (∀ c : String,
              Effect.fileWrite [env.dirname.raw, "environment.yml"] c ∉ (runMain tpl env).trace)
          ∧ (runMain tpl env).aborted = false
          ∧ Effect.fileWrite [env.dirname.raw, "src", "main.py"] tpl.mainFile
              ∈ (runMain tpl env).trace)
      ∧ (∀ pfx, env.condaEnvVar = some pfx →
          Effect.fileWrite [env.dirname.raw, "environment.yml"]
              (tpl.environmentYml pn (pathToString [pfx, "envs", pn])) ∈ (runMain tpl env).trace)
      ∧ (∀ pfx nm : String, pathToString [pfx, "envs", nm] = pfx ++ "/" ++ "envs" ++ "/" ++ nm) := by
  obtain ⟨⟨raw, utf8⟩, lang, no, ex, gc, co, cev, uu, td⟩ := env
  subst hlang
  refine ⟨fun henv => ?_, fun pfx henv => ?_, fun pfx nm => ?_⟩
  · subst henv
    rw [runMain_ok tpl _ pn hres hne hdirs]
    refine ⟨?_, ?_, rfl, ?_⟩
    · simp [langPart, make_conda_yml, List.mem_append]
    · intro c
      show Effect.fileWrite [raw, "environment.yml"] c ∉
        (make_dirs ex [raw] raw).1 ++ _ ++ _ ++ _ ++ _
      rw [make_dirs_ok_trace ex [raw] raw hdirs]
      cases hgc : get_author_email gc <;> cases co <;>
        simp [langPart, conda_create, make_conda_yml, authorWarnPart, hgc,
          DIRECTORIES, List.mem_append]
    · simp [langPart, List.mem_append]
  · subst henv
    rw [runMain_ok tpl _ pn hres hne hdirs]
    simp [langPart, make_conda_yml, List.mem_append]
  · simp only [pathToString, String.append_assoc]

/-- Claim C9 witness: with `CONDA_PREFIX` set to `"P"` the environment
file write (with the computed path) is in the trace; with it unset, a
concrete `environment.yml` write is not. -/
theorem C9_witness :
    Effect.fileWrite [samplePyEnv.dirname.raw, "environment.yml"]
        (sampleTemplates.environmentYml "proj" (pathToString ["P", "envs", "proj"]))
        ∈ (runMain sampleTemplates samplePyEnv).trace
      ∧ Effect.fileWrite [samplePyEnvNoConda.dirname.raw, "environment.yml"] "X"
          ∉ (runMain sampleTemplates samplePyEnvNoConda).trace :=
  ⟨(C9_conda_yml sampleTemplates samplePyEnv "proj" rfl (by decide) (by decide) rfl).2.1
      "P" rfl,
    ((C9_conda_yml sampleTemplates samplePyEnvNoConda "proj" rfl (by decide) (by decide)
        rfl).1 rfl).2.1 "X"⟩
